import Mathlib

/-!
Verification development for the customer-assistant dialogue engine
(`src/app/api/customer-assistant/route.ts`, most complete variant).

Modelling conventions:
* JS strings are modelled as `List Char` (`Str`); string literals enter via
  `String.data`.  `toLowerCase`/`trim`/`split(/\s+/)` are modelled character
  by character for the ASCII range that the engine's fixed keyword tables
  live in (JS also lowercases non-ASCII letters, which none of the tables
  contain).
* JS `number` is modelled by `ℚ`.  Every numeric fact proved below involves
  only values on which IEEE-754 double arithmetic is exact or rounds to the
  same value as exact rational arithmetic (e.g. `0.8 * 100 = 80`).
* The regular expressions of the source are transcribed into a small
  backtracking combinator engine (`MPat`) whose ordered-choice semantics
  (alternatives tried left to right, greedy/lazy quantifier preference,
  leftmost search position wins) matches the JS regex engine on the
  pattern class used by the source: literals, ordered alternation,
  optional groups, greedy and lazy repetition of character classes, and
  end anchors.
-/

/-- JS strings, modelled as lists of characters. -/
abbrev Str := List Char

/-- The apostrophe character, used by several keyword-table entries. -/
def apos : Char := Char.ofNat 39

/-- Character class of the JS regex `\s` (whitespace). -/
def isWsChar (c : Char) : Bool :=
  let n := c.toNat
  n == 9 || n == 10 || n == 11 || n == 12 || n == 13 || n == 32 ||
  n == 160 || n == 5760 || (8192 ≤ n && n ≤ 8202) || n == 8232 ||
  n == 8233 || n == 8239 || n == 8287 || n == 12288 || n == 65279

/-- Character class of the JS regex `\d`. -/
def isDigitChar (c : Char) : Bool := '0' ≤ c && c ≤ '9'

/-- Character class of the JS regex `.` (anything but a line terminator). -/
def isDotChar (c : Char) : Bool :=
  let n := c.toNat
  !(n == 10 || n == 13 || n == 8232 || n == 8233)

/-- ASCII lowering, as performed by `String.prototype.toLowerCase` on the
ASCII range (all fixed keyword tables of the source are ASCII). -/
def charToLower (c : Char) : Char :=
  if 'A' ≤ c ∧ c ≤ 'Z' then Char.ofNat (c.toNat + 32) else c

/-- `s.toLowerCase()`. -/
def toLowerStr (s : Str) : Str := s.map charToLower

/-- `s.trim()`. -/
def trimStr (s : Str) : Str :=
  ((s.dropWhile isWsChar).reverse.dropWhile isWsChar).reverse

/-- `small.isPrefixOf big` with case-sensitive character equality,
the building block of `String.prototype.includes`. -/
def startsWithL : Str → Str → Bool
  | [], _ => true
  | _ :: _, [] => false
  | p :: ps, c :: cs => p == c && startsWithL ps cs

/-- `hay.includes(needle)`. -/
def containsL (needle : Str) : Str → Bool
  | [] => startsWithL needle []
  | c :: cs => startsWithL needle (c :: cs) || containsL needle cs

/-! ### A backtracking regex-combinator engine

A pattern is a continuation transformer: it consumes characters from the
front of the input and calls the continuation on the remainder.  `Option`
plus ordered `<|>` realises the JS engine's ordered backtracking. -/

/-- Continuations of the matching engine. -/
abbrev MCont (α : Type) := Str → Option α

/-- Patterns: continuation transformers over `MCont`. -/
abbrev MPat (α : Type) := MCont α → MCont α

/-- A literal, compared case-insensitively (all source regexes carry `/i`;
on already-lowercased input this is plain equality). -/
def pLit (s : Str) : MPat α := fun k l =>
  match go s l with
  | some r => k r
  | none => none
where
  /-- Case-insensitive removal of the literal from the front. -/
  go : Str → Str → Option Str
    | [], l => some l
    | _ :: _, [] => none
    | p :: ps, c :: cs =>
      if charToLower p = charToLower c then go ps cs else none

/-- Ordered alternation `(a|b|...)` — first successful alternative wins,
backtracking into later alternatives if the continuation fails. -/
def pAlt : List (MPat α) → MPat α
  | [] => fun _ _ => none
  | p :: ps => fun k l => p k l <|> pAlt ps k l

/-- Sequencing of pattern pieces. -/
def pSeq : List (MPat α) → MPat α
  | [] => fun k => k
  | p :: ps => fun k => p (pSeq ps k)

/-- Greedy option `x?` — prefers the present branch. -/
def pOpt (p : MPat α) : MPat α := fun k l => p k l <|> k l

/-- Greedy `cls*` with backtracking, longest first. -/
def manyGo (cls : Char → Bool) (k : MCont α) : MCont α
  | [] => k []
  | c :: cs => if cls c then (manyGo cls k cs <|> k (c :: cs)) else k (c :: cs)

/-- Greedy `cls*`. -/
def pManyG (cls : Char → Bool) : MPat α := fun k l => manyGo cls k l

/-- Greedy `cls+`. -/
def pPlusG (cls : Char → Bool) : MPat α := fun k l =>
  match l with
  | [] => none
  | c :: cs => if cls c then manyGo cls k cs else none

/-- Lazy `cls*` with backtracking, shortest first. -/
def manyLo (cls : Char → Bool) (k : MCont α) : MCont α
  | [] => k []
  | c :: cs => k (c :: cs) <|> (if cls c then manyLo cls k cs else none)

/-- Lazy `cls+`. -/
def pPlusL (cls : Char → Bool) : MPat α := fun k l =>
  match l with
  | [] => none
  | c :: cs => if cls c then manyLo cls k cs else none

/-- Greedy bounded repetition `cls` at least 1, at most 2 times. -/
def pRep12 (cls : Char → Bool) : MPat α := fun k l =>
  match l with
  | [] => none
  | [c1] => if cls c1 then k [] else none
  | c1 :: c2 :: r =>
    if cls c1 then
      (if cls c2 then (k r <|> k (c2 :: r)) else k (c2 :: r))
    else none

/-- The `$` anchor (JS without the `m` flag: end of input only). -/
def pEnd : MPat α := fun k l =>
  match l with
  | [] => k []
  | _ :: _ => none

/-- Capture lists produced by a match: the numbered groups in order
(the JS `match[0]` full match is not stored; `match[i]` is entry `i-1`). -/
abbrev Caps := List Str

/-- A capturing group: records the consumed segment. -/
def pGroup (p : MPat Caps) : MPat Caps := fun k l =>
  p (fun rest => (k rest).map fun caps => (l.take (l.length - rest.length)) :: caps) l

/-- Unanchored search: try the pattern at each start position, leftmost
position first, returning the captures of the first match. -/
def reSearch (p : MPat Caps) : Str → Option Caps
  | [] => p (fun _ => some []) []
  | c :: cs => p (fun _ => some []) (c :: cs) <|> reSearch p cs

/-- Anchored whole-string match, for the source's `^...$` regexes. -/
def reExact (p : MPat Caps) : Str → Option Caps := fun l =>
  pSeq [p, pEnd] (fun _ => some []) l

/-- `match[i]`: the `i`-th capture group of a match result. -/
def matchCap (caps : Caps) (i : Nat) : Str := caps.getD (i - 1) []

/-- Alternation of plain literals. -/
def lits (ss : List String) : MPat α := pAlt (ss.map fun s => pLit s.data)

/-! ### Number parsing (`parseFloat`) -/

/-- Digits to a natural number. -/
def digitsToNat (ds : Str) : Nat :=
  ds.foldl (fun acc c => acc * 10 + (c.toNat - 48)) 0

/-- `parseFloat`: leading whitespace, optional sign, integer and/or
fractional digits, optional exponent.  `none` models `NaN` (no parsable
number at the front); `Infinity` inputs are outside the modelled inputs. -/
def parseFloatQ (s : Str) : Option ℚ :=
  let s1 := s.dropWhile isWsChar
  let (sign, s2) : ℚ × Str :=
    match s1 with
    | '-' :: r => (-1, r)
    | '+' :: r => (1, r)
    | r => (1, r)
  let ds := s2.takeWhile isDigitChar
  let s3 := s2.drop ds.length
  let (fs, s4) : Str × Str :=
    match s3 with
    | '.' :: r => (r.takeWhile isDigitChar, r.drop (r.takeWhile isDigitChar).length)
    | r => ([], r)
  if ds.isEmpty && fs.isEmpty then none
  else
    let base : ℚ := (digitsToNat ds : ℚ) + (digitsToNat fs : ℚ) / ((10 : ℚ) ^ fs.length)
    let expo : Option Int :=
      match s4 with
      | 'e' :: '-' :: r =>
        let es := r.takeWhile isDigitChar
        if es.isEmpty then none else some (-(digitsToNat es : Int))
      | 'e' :: '+' :: r =>
        let es := r.takeWhile isDigitChar
        if es.isEmpty then none else some (digitsToNat es : Int)
      | 'e' :: r =>
        let es := r.takeWhile isDigitChar
        if es.isEmpty then none else some (digitsToNat es : Int)
      | _ => none
    match expo with
    | some e => some (sign * base * (10 : ℚ) ^ e)
    | none => some (sign * base)

/-- The numeric capture of a match, `parseFloat(match[i])` — on the
patterns below the captured text always parses, so `getD 0` is inert. -/
def capNum (caps : Caps) (i : Nat) : ℚ :=
  (parseFloatQ (matchCap caps i)).getD 0

/-! ### `detectPriceRange` (route.ts, "Improved price range detection") -/

/-- `{min?, max?}` price ranges. -/
structure PriceRange where
  min : Option ℚ
  max : Option ℚ
deriving Repr, DecidableEq

/-- The shared tail `\s*\$?\s*` of all price regexes. -/
def moneyGap : List (MPat α) := [pManyG isWsChar, pOpt (pLit "$".data), pManyG isWsChar]

/-- `\d+(?:\.\d{1,2})?`. -/
def numberPat : MPat α :=
  pSeq [pPlusG isDigitChar, pOpt (pSeq [pLit ".".data, pRep12 isDigitChar])]

/-- `/(under|below|less than|up to|maximum|max|cheaper than)\s*\$?\s*(\d+(?:\.\d{1,2})?)/i` -/
def underPattern : MPat Caps :=
  pSeq ([pGroup (lits ["under", "below", "less than", "up to", "maximum", "max", "cheaper than"])]
    ++ moneyGap ++ [pGroup numberPat])

/-- `/(over|above|more than|greater than|minimum|min|at least|expensive than)\s*\$?\s*(\d+(?:\.\d{1,2})?)/i` -/
def overPattern : MPat Caps :=
  pSeq ([pGroup (lits ["over", "above", "more than", "greater than", "minimum", "min", "at least", "expensive than"])]
    ++ moneyGap ++ [pGroup numberPat])

/-- `/(between|from)\s*\$?\s*(\d+(?:\.\d{1,2})?)\s*(?:and|to|-|and up to)\s*\$?\s*(\d+(?:\.\d{1,2})?)/i` -/
def betweenPattern : MPat Caps :=
  pSeq ([pGroup (lits ["between", "from"])] ++ moneyGap ++ [pGroup numberPat,
    pManyG isWsChar, lits ["and", "to", "-", "and up to"]] ++ moneyGap ++ [pGroup numberPat])

/-- `/(around|approximately|about|near|close to)\s*\$?\s*(\d+(?:\.\d{1,2})?)/i` -/
def aroundPattern : MPat Caps :=
  pSeq ([pGroup (lits ["around", "approximately", "about", "near", "close to"])]
    ++ moneyGap ++ [pGroup numberPat])

/-- `/(\$?\s*\d+(?:\.\d{1,2})?)\s*(exactly|precisely)/i` -/
def exactPattern : MPat Caps :=
  pSeq [pGroup (pSeq ([pOpt (pLit "$".data), pManyG isWsChar, numberPat] : List (MPat Caps))),
    pManyG isWsChar, pGroup (lits ["exactly", "precisely"])]

/-- `capture.replace('$', '')`: remove the first dollar sign. -/
def removeFirstDollar : Str → Str
  | [] => []
  | c :: cs => if c = '$' then cs else c :: removeFirstDollar cs

/-- `detectPriceRange(query)`: five phrasings applied with the fixed
precedence between/from > under > over > around > exact. -/
def detectPriceRange (query : Str) : Option PriceRange :=
  let lowerQuery := toLowerStr query
  let underMatch := reSearch underPattern lowerQuery
  let overMatch := reSearch overPattern lowerQuery
  let betweenMatch := reSearch betweenPattern lowerQuery
  let aroundMatch := reSearch aroundPattern lowerQuery
  let exactMatch := reSearch exactPattern lowerQuery
  match betweenMatch with
  | some caps =>
    let mn := capNum caps 2
    let mx := capNum caps 3
    some ⟨some (min mn mx), some (max mn mx)⟩
  | none =>
  match underMatch with
  | some caps => some ⟨none, some (capNum caps 2)⟩
  | none =>
  match overMatch with
  | some caps => some ⟨some (capNum caps 2), none⟩
  | none =>
  match aroundMatch with
  | some caps =>
    let price := capNum caps 2
    some ⟨some (price * 0.8), some (price * 1.2)⟩
  | none =>
  match exactMatch with
  | some caps =>
    let price := (parseFloatQ (removeFirstDollar (matchCap caps 1))).getD 0
    some ⟨some (price * 0.95), some (price * 1.05)⟩
  | none => none

/-! ### `extractProductKeywords` (route.ts) -/

/-- Run a pattern at the current position, returning the remainder after
the match (the continuation `some` just reports where the match ended). -/
def reFindAt (p : MPat Str) (l : Str) : Option Str := p some l

/-- The worker of `gRem`, structurally recursive on a fuel argument so
that it evaluates inside the kernel.  Every step either consumes one
character or jumps past a match (matches consume at least one character,
the guard on `rest.length` being inert), so fuel equal to the string
length never runs out. -/
def gRemFuel (tryAt : Str → Option Str) : Nat → Str → Str
  | 0, l => l
  | _ + 1, [] => []
  | fuel + 1, c :: cs =>
    match tryAt (c :: cs) with
    | some rest =>
      if rest.length < cs.length + 1 then gRemFuel tryAt fuel rest
      else c :: gRemFuel tryAt fuel cs
    | none => c :: gRemFuel tryAt fuel cs

/-- `text.replace(pattern, '')` with the `g` flag: walk the string; at a
match, drop the matched segment and continue scanning after it. -/
def gRem (tryAt : Str → Option Str) (l : Str) : Str := gRemFuel tryAt l.length l

/-- The five price phrasings stripped by `extractProductKeywords` (their
capture groups are irrelevant to replacement and are not transcribed). -/
def kwPricePatterns : List (MPat Str) :=
  [pSeq ([lits ["under", "below", "less than", "up to", "maximum", "max"]]
     ++ moneyGap ++ [numberPat]),
   pSeq ([lits ["over", "above", "more than", "greater than", "minimum", "min"]]
     ++ moneyGap ++ [numberPat]),
   pSeq ([pLit "between".data] ++ moneyGap ++ [numberPat, pManyG isWsChar,
     lits ["and", "to", "-"]] ++ moneyGap ++ [numberPat]),
   pSeq ([lits ["around", "approximately", "about"]] ++ moneyGap ++ [numberPat]),
   pSeq [pLit "$".data, numberPat]]

/-- `query.split(/\s+/)`: tokens between maximal whitespace runs, with the
JS boundary semantics (leading/trailing whitespace yields an empty
boundary token; the empty string splits to one empty token).  `some acc`
is the token being accumulated, `none` means inside a whitespace run. -/
def splitWsA : Str → Option Str → List Str
  | [], some acc => [acc.reverse]
  | [], none => [[]]
  | c :: cs, some acc =>
    if isWsChar c then acc.reverse :: splitWsA cs none else splitWsA cs (some (c :: acc))
  | c :: cs, none =>
    if isWsChar c then splitWsA cs none else splitWsA cs (some [c])

/-- `query.split(/\s+/)`. -/
def splitWs (l : Str) : List Str := splitWsA l (some [])

/-- `.filter((word, index, self) => self.indexOf(word) === index)`:
keep the first occurrence of each word. -/
def dedupFirstGo (seen : List Str) : List Str → List Str
  | [] => []
  | w :: ws =>
    if seen.contains w then dedupFirstGo seen ws
    else w :: dedupFirstGo (w :: seen) ws

/-- Deduplication preserving first occurrences. -/
def dedupFirst (l : List Str) : List Str := dedupFirstGo [] l

/-- The stop-word list of `extractProductKeywords`. -/
def kwFillerWords : List Str :=
  (["is", "there", "any", "do", "you", "have", "show", "me", "some", "find",
    "looking", "for", "need", "want", "what", "where", "when", "how", "why",
    "can", "could", "would", "should", "does", "did", "are", "am", "the", "a",
    "an", "that", "this", "those", "these", "please", "thank", "thanks", "hi",
    "hello", "hey", "greetings", "about", "with", "without", "like", "similar",
    "to", "from", "of", "in", "on", "at", "by", "for", "and", "or", "but"] :
    List String).map String.data

/-- The global replacement loop of `extractProductKeywords`: strip every
occurrence of each of the five price phrasings, in order. -/
def removePricePhrases (s : Str) : Str :=
  kwPricePatterns.foldl (fun acc pat => gRem (reFindAt pat) acc) s

/-- `extractProductKeywords(query)`: lowercase, strip price phrases,
split on whitespace, keep long non-stop-words, deduplicate. -/
def extractProductKeywords (query : Str) : List Str :=
  let lowerQuery := toLowerStr query
  let cleanQuery := removePricePhrases lowerQuery
  let words := (splitWs cleanQuery).filter
    (fun w => w.length > 2 && !(kwFillerWords.contains w))
  dedupFirst words

/-! ### `isConfirmationResponse` (route.ts) -/

/-- Confirmation polarity. -/
inductive Confirm where
  | yes
  | no
deriving DecidableEq, Repr

/-- The affirmative whitelist: each source regex is `/^phrase$/i` on the
lowercased trimmed query, i.e. an exact-match test; `/^yes,? proceed$/i`
and `/^yes,? continue$/i` contribute their two spellings each. -/
def yesWhitelist : List Str :=
  (["yes", "yeah", "yep", "sure", "ok", "okay", "y", "proceed", "go ahead",
    "continue", "confirm", "yes please", "yes proceed", "yes, proceed",
    "yes continue", "yes, continue", "absolutely", "definitely", "of course",
    "do it"] : List String).map String.data ++
  ["let".data ++ apos :: "s do it".data, "let".data ++ apos :: "s go".data]

/-- The negative whitelist. -/
def noWhitelist : List Str :=
  (["no", "nope", "nah", "cancel", "stop", "abort", "n", "no thanks",
    "not now", "maybe later", "not really"] : List String).map String.data ++
  ["don".data ++ apos :: "t".data] ++
  (["skip", "never mind", "forget it"] : List String).map String.data

/-- `isConfirmationResponse(query)`. -/
def isConfirmationResponse (query : Str) : Option Confirm :=
  let lowerQuery := trimStr (toLowerStr query)
  if yesWhitelist.contains lowerQuery then some .yes
  else if noWhitelist.contains lowerQuery then some .no
  else none

/-! ### `isNonsenseQuery` (route.ts) -/

/-- The `[a-zA-Z]` class. -/
def isLetterChar (c : Char) : Bool :=
  ('a' ≤ c && c ≤ 'z') || ('A' ≤ c && c ≤ 'Z')

/-- `/([a-zA-Z])\1{4,}/`: five consecutive copies of one letter. -/
def hasRepeatRun : Str → Bool
  | a :: b :: c :: d :: e :: rest =>
    (isLetterChar a && a == b && b == c && c == d && d == e) ||
      hasRepeatRun (b :: c :: d :: e :: rest)
  | _ => false

/-- The `[aeiouyAEIOUY]` class. -/
def isVowelChar (c : Char) : Bool :=
  c == 'a' || c == 'e' || c == 'i' || c == 'o' || c == 'u' || c == 'y' ||
  c == 'A' || c == 'E' || c == 'I' || c == 'O' || c == 'U' || c == 'Y'

/-- `isNonsenseQuery(query)`. -/
def isNonsenseQuery (query : Str) : Bool :=
  hasRepeatRun query ||
  (!(query.any isVowelChar) && query.length > 6) ||
  ((splitWs query).length == 1 && query.length < 3) ||
  (!query.isEmpty && query.all isDigitChar)

/-! ### `isComparisonQuery` (route.ts) -/

/-- `config.comparisonKeywords`. -/
def comparisonKeywords : List Str :=
  (["compare", "comparison", "vs", "versus", "difference between",
    "differences between", "which is better", "pros and cons",
    "should I get", "help me choose", "which one", "versus",
    "better option", "advantages of", "contrast between"] : List String).map String.data

/-- `(?:a |an |the )?`. -/
def artQ : MPat Caps := pOpt (lits ["a ", "an ", "the "])

/-- A lazy capture group `(.+?)`. -/
def capLazy : MPat Caps := pGroup (pPlusL isDotChar)

/-- `(?:\?|$)`. -/
def qEnd : MPat Caps := pAlt [pLit "?".data, pEnd]

/-- The three characters matched by the source's `b\\w` (an escaped
backslash in the regex literal: the letter `b`, a literal backslash,
then the letter `w`); no real query contains it. -/
def bwLit : Str := ['b', '\\', 'w']

/-- `(?:vs\.?|versus)`. -/
def sepVV : MPat Caps := pAlt [pSeq [pLit "vs".data, pOpt (pLit ".".data)], pLit "versus".data]

/-- `(?:and|or|vs\.?|versus)`. -/
def sepAOVV : MPat Caps := pAlt [pLit "and".data, pLit "or".data,
  pSeq [pLit "vs".data, pOpt (pLit ".".data)], pLit "versus".data]

/-- `(?:or|vs\.?|versus)`. -/
def sepOVV : MPat Caps := pAlt [pLit "or".data,
  pSeq [pLit "vs".data, pOpt (pLit ".".data)], pLit "versus".data]

/-- The ordered comparison patterns of `isComparisonQuery`, transcribed
from the eight regex literals of the source. -/
def comparisonPatterns : List (MPat Caps) :=
  [ -- difference between X and Y
   pSeq [pOpt (pSeq [pLit "what".data,
      pOpt (pAlt [pLit (apos :: "s".data), pLit " is".data, pLit " are".data]),
      pLit " ".data, pOpt (pLit "the ".data)]),
    pLit "difference".data, pOpt (pLit "s".data), pLit " ".data,
    pAlt [pLit "between".data, pLit bwLit], pLit " ".data,
    artQ, capLazy, pLit " ".data, sepAOVV, pLit " ".data, artQ, capLazy, qEnd],
   -- compare X and Y
   pSeq [pAlt [pLit "compare".data, pLit "comparison".data],
    pOpt (pAlt [pLit " between".data, pLit (' ' :: bwLit)]), pLit " ".data,
    artQ, capLazy, pLit " ".data, sepAOVV, pLit " ".data, artQ, capLazy, qEnd],
   -- X vs Y
   pSeq [capLazy, pLit " ".data, sepVV, pLit " ".data, capLazy, qEnd],
   -- which is better X or Y
   pSeq [pAlt [pLit "which is better".data, pLit "which one is better".data,
      pLit ("what".data ++ apos :: "s better".data)],
    pOpt (pAlt [pLit " between".data, pLit (' ' :: bwLit)]), pLit " ".data,
    artQ, capLazy, pLit " ".data, sepOVV, pLit " ".data, artQ, capLazy, qEnd],
   -- should i get X or Y
   pSeq [pAlt [pLit "should i get".data, pLit "should i buy".data,
      pLit "would you recommend".data],
    pOpt (pAlt [pLit " a".data, pLit " an".data, pLit " the".data]), pLit " ".data,
    capLazy, pLit " ".data, sepOVV, pLit " ".data, artQ, capLazy, qEnd],
   -- what is the difference of X and Y
   pSeq [pAlt [pSeq [pLit "what".data, pOpt (pAlt [pLit (apos :: "s".data), pLit " is".data])],
      pLit "tell me".data], pLit " ".data,
    pOpt (pLit "about ".data), pOpt (pLit "the ".data),
    pAlt [pLit "difference".data, pLit "comparison".data], pLit " ".data,
    pOpt (pAlt [pLit "of ".data, pLit "between ".data, pLit (bwLit ++ " ".data)]),
    artQ, capLazy, pLit " ".data, sepAOVV, pLit " ".data, artQ, capLazy, qEnd],
   -- help me choose between X and Y
   pSeq [pAlt [pSeq [pLit "help me choose ".data, pAlt [pLit "between".data, pLit bwLit]],
      pSeq [pLit "choose ".data, pAlt [pLit "between".data, pLit bwLit]]], pLit " ".data,
    artQ, capLazy, pLit " ".data, sepAOVV, pLit " ".data, artQ, capLazy, qEnd],
   -- pros and cons of X vs Y
   pSeq [pAlt [pLit "pros and cons of".data, pLit "advantages of".data], pLit " ".data,
    capLazy, pLit " ".data,
    pAlt [pSeq [pLit "vs".data, pOpt (pLit ".".data)], pLit "versus".data, pLit "compared to".data],
    pLit " ".data, capLazy, qEnd]]

/-- A recognised comparison request: the two captured product names. -/
structure ComparisonPair where
  product1 : Str
  product2 : Str
deriving DecidableEq, Repr

/-- `.replace(/^(a |an |the )/i, '')`: strip one leading article. -/
def stripArticle (s : Str) : Str :=
  if startsWithL "a ".data s then s.drop 2
  else if startsWithL "an ".data s then s.drop 3
  else if startsWithL "the ".data s then s.drop 4
  else s

/-- The pattern loop of `isComparisonQuery`: first pattern that matches
with both cleaned names longer than one character wins; otherwise the
loop continues with the next pattern. -/
def comparisonLoop : List (MPat Caps) → Str → Option ComparisonPair
  | [], _ => none
  | p :: ps, lowerQuery =>
    match reSearch p lowerQuery with
    | some caps =>
      if matchCap caps 1 ≠ [] ∧ matchCap caps 2 ≠ [] then
        let product1 := stripArticle (trimStr (matchCap caps 1))
        let product2 := stripArticle (trimStr (matchCap caps 2))
        if product1.length > 1 ∧ product2.length > 1 then some ⟨product1, product2⟩
        else comparisonLoop ps lowerQuery
      else comparisonLoop ps lowerQuery
    | none => comparisonLoop ps lowerQuery

/-- `isComparisonQuery(query)`: requires a comparison trigger keyword,
then tries the eight structural patterns in order. -/
def isComparisonQuery (query : Str) : Option ComparisonPair :=
  let lowerQuery := trimStr (toLowerStr query)
  if comparisonKeywords.any (fun kw => containsL (toLowerStr kw) lowerQuery) then
    comparisonLoop comparisonPatterns lowerQuery
  else none

/-! ### Products and `findMatchingProducts` (route.ts) -/

/-- The catalog product record (`interface Product`). -/
structure Product where
  slug : Str
  _id : Str
  title : Str
  price : ℚ
  inventory : Int
  description : Str
  category : Option Str := none
  image_url : Option Str := none
deriving DecidableEq, Repr

/-- `config.semanticKeywords`: the fixed keyword → synonym table. -/
def semanticKeywords : List (String × List String) :=
  [("printer", ["printer", "card printer", "id printer", "badge printer", "printing machine"]),
   ("cards", ["card", "id card", "badge", "access card", "employee card"]),
   ("electronics", ["electronic", "device", "machine", "equipment"]),
   ("mobile", ["mobile", "phone", "smartphone", "cell phone", "cellular", "iphone", "android", "samsung", "huawei", "xiaomi", "oppo", "vivo", "oneplus"]),
   ("phone", ["phone", "mobile", "smartphone", "cell phone", "telephonae"]),
   ("smartphone", ["smartphone", "smart phone", "mobile", "phone", "android", "ios"]),
   ("laptop", ["laptop", "notebook", "computer", "pc", "macbook", "chromebook", "ultrabook"]),
   ("computer", ["computer", "pc", "desktop", "workstation", "cpu", "tower"]),
   ("tablet", ["tablet", "ipad", "android tablet", "tab", "slate"]),
   ("monitor", ["monitor", "screen", "display", "lcd", "led", "oled", "gaming monitor"]),
   ("keyboard", ["keyboard", "mechanical keyboard", "wireless keyboard", "gaming keyboard"]),
   ("mouse", ["mouse", "wireless mouse", "gaming mouse", "trackball", "pointer"]),
   ("card_printer", ["card printer", "id card printer", "badge printer", "plastic card printer", "pvc card printer"]),
   ("projector", ["projector", "video projector", "presentation projector", "digital projector", "lcd projector", "led projector"]),
   ("id_card", ["id card", "identity card", "employee card", "access card", "badge", "card"]),
   ("badge", ["badge", "id badge", "employee badge", "name badge", "access badge"]),
   ("headphones", ["headphones", "headset", "earphones", "earbuds", "wireless headphones", "bluetooth headphones"]),
   ("speaker", ["speaker", "bluetooth speaker", "wireless speaker", "portable speaker", "stereo"]),
   ("microphone", ["microphone", "mic", "recording mic", "usb mic", "wireless mic"]),
   ("camera", ["camera", "digital camera", "webcam", "video camera", "dslr", "mirrorless"]),
   ("gaming", ["gaming", "game", "console", "playstation", "xbox", "nintendo", "pc gaming"]),
   ("controller", ["controller", "gamepad", "joystick", "gaming controller"]),
   ("chair", ["chair", "office chair", "gaming chair", "desk chair", "ergonomic chair", "stool", "seat"]),
   ("table", ["table", "desk", "office desk", "dining table", "coffee table", "work table"]),
   ("desk", ["desk", "office desk", "computer desk", "study desk", "work desk", "table"]),
   ("sofa", ["sofa", "couch", "settee", "loveseat", "sectional"]),
   ("bed", ["bed", "mattress", "bed frame", "single bed", "double bed", "queen bed", "king bed"]),
   ("cabinet", ["cabinet", "cupboard", "storage cabinet", "file cabinet", "wardrobe"]),
   ("shelf", ["shelf", "bookshelf", "storage shelf", "wall shelf", "shelving unit"]),
   ("drawer", ["drawer", "chest of drawers", "storage drawer", "filing drawer"]),
   ("refrigerator", ["refrigerator", "fridge", "freezer", "cooler", "ice box"]),
   ("microwave", ["microwave", "microwave oven", "convection microwave"]),
   ("oven", ["oven", "baking oven", "convection oven", "toaster oven"]),
   ("blender", ["blender", "mixer", "food processor", "smoothie maker"]),
   ("toaster", ["toaster", "bread toaster", "pop-up toaster"]),
   ("lamp", ["lamp", "table lamp", "floor lamp", "desk lamp", "reading lamp", "led lamp"]),
   ("light", ["light", "lighting", "led light", "ceiling light", "wall light", "bulb"]),
   ("bulb", ["bulb", "light bulb", "led bulb", "incandescent bulb", "cfl bulb"]),
   ("shirt", ["shirt", "t-shirt", "tshirt", "polo shirt", "dress shirt", "casual shirt"]),
   ("pants", ["pants", "trousers", "jeans", "chinos", "slacks"]),
   ("shoes", ["shoes", "sneakers", "boots", "sandals", "heels", "flats", "footwear"]),
   ("jacket", ["jacket", "coat", "blazer", "hoodie", "cardigan"]),
   ("dress", ["dress", "gown", "frock", "maxi dress", "mini dress"]),
   ("bag", ["bag", "handbag", "backpack", "purse", "tote bag", "shoulder bag", "laptop bag"]),
   ("watch", ["watch", "wristwatch", "smartwatch", "digital watch", "analog watch"]),
   ("wallet", ["wallet", "purse", "money clip", "card holder"]),
   ("belt", ["belt", "leather belt", "fabric belt"]),
   ("sunglasses", ["sunglasses", "shades", "eyewear", "sun glasses"]),
   ("bicycle", ["bicycle", "bike", "cycle", "mountain bike", "road bike", "hybrid bike"]),
   ("treadmill", ["treadmill", "running machine", "exercise machine"]),
   ("dumbbell", ["dumbbell", "weight", "free weight", "hand weight"]),
   ("yoga_mat", ["yoga mat", "exercise mat", "fitness mat", "workout mat"]),
   ("book", ["book", "textbook", "novel", "ebook", "paperback", "hardcover"]),
   ("notebook", ["notebook", "notepad", "journal", "diary", "writing pad"]),
   ("pen", ["pen", "ballpoint pen", "gel pen", "fountain pen", "marker"]),
   ("pencil", ["pencil", "mechanical pencil", "colored pencil", "drawing pencil"]),
   ("drill", ["drill", "power drill", "cordless drill", "electric drill"]),
   ("hammer", ["hammer", "claw hammer", "sledgehammer", "mallet"]),
   ("screwdriver", ["screwdriver", "phillips screwdriver", "flathead screwdriver"]),
   ("wrench", ["wrench", "spanner", "adjustable wrench", "socket wrench"]),
   ("perfume", ["perfume", "cologne", "fragrance", "eau de toilette", "eau de parfum"]),
   ("shampoo", ["shampoo", "hair wash", "hair shampoo", "anti-dandruff shampoo"]),
   ("soap", ["soap", "body soap", "hand soap", "bath soap", "liquid soap"]),
   ("toothbrush", ["toothbrush", "electric toothbrush", "manual toothbrush"]),
   ("thermometer", ["thermometer", "digital thermometer", "infrared thermometer"]),
   ("medicine", ["medicine", "medication", "pills", "tablets", "capsules"]),
   ("first_aid", ["first aid", "first aid kit", "medical kit", "bandage", "antiseptic"]),
   ("toy", ["toy", "kids toy", "children toy", "educational toy", "action figure"]),
   ("puzzle", ["puzzle", "jigsaw puzzle", "brain teaser", "word puzzle"]),
   ("board_game", ["board game", "card game", "family game", "strategy game"]),
   ("car", ["car", "vehicle", "automobile", "sedan", "suv", "hatchback"]),
   ("tire", ["tire", "tyre", "wheel", "car tire", "bicycle tire"]),
   ("battery", ["battery", "car battery", "rechargeable battery", "alkaline battery"]),
   ("suitcase", ["suitcase", "luggage", "travel bag", "carry-on", "checked bag"]),
   ("backpack", ["backpack", "rucksack", "hiking bag", "school bag", "travel backpack"]),
   ("seating", ["chair", "stool", "bench", "sofa", "couch", "armchair", "ottoman"]),
   ("tables", ["table", "desk", "dining table", "coffee table", "side table", "nightstand"]),
   ("storage", ["cabinet", "drawer", "shelf", "bookshelf", "wardrobe", "closet", "chest"]),
   ("lighting", ["lamp", "light", "chandelier", "bulb", "fixture", "sconce"]),
   ("bedding", ["bed", "mattress", "pillow", "sheet", "blanket", "comforter", "duvet"]),
   ("party_decor", ["balloon", "streamer", "banner", "confetti", "garland", "backdrop"]),
   ("lighting_decor", ["candle", "fairy lights", "string lights", "lantern", "torch"]),
   ("tableware", ["plate", "cup", "glass", "napkin", "tablecloth", "cutlery"]),
   ("flowers", ["flower", "bouquet", "vase", "plant", "centerpiece"]),
   ("cookware", ["pan", "pot", "skillet", "wok", "bakeware", "cookware"]),
   ("appliances", ["blender", "mixer", "toaster", "microwave", "oven", "refrigerator"]),
   ("utensils", ["spoon", "fork", "knife", "spatula", "whisk", "tongs"]),
   ("audio", ["speaker", "headphone", "microphone", "stereo", "radio"]),
   ("computing", ["laptop", "computer", "tablet", "phone", "monitor", "keyboard"]),
   ("clothing", ["shirt", "pants", "dress", "jacket", "shoes", "hat"]),
   ("accessories", ["bag", "wallet", "belt", "watch", "jewelry", "sunglasses"]),
   ("fitness", ["weight", "dumbbell", "treadmill", "yoga mat", "exercise bike"]),
   ("outdoor", ["tent", "sleeping bag", "backpack", "hiking boots"]),
   ("skincare", ["cream", "lotion", "serum", "cleanser", "moisturizer"]),
   ("makeup", ["lipstick", "foundation", "mascara", "eyeshadow", "blush"]),
   ("tools", ["hammer", "screwdriver", "drill", "wrench", "saw"]),
   ("hardware", ["screw", "nail", "bolt", "wire", "cable"])]

/-- The price filter closure inside `findMatchingProducts`: both bounds
inclusive when both present, strict `price > min` when only a minimum is
present, inclusive `price <= max` when only a maximum is present. -/
def inPriceRange (priceRange : PriceRange) (price : ℚ) : Bool :=
  match priceRange.min, priceRange.max with
  | some mn, some mx => decide (mn ≤ price) && decide (price ≤ mx)
  | some mn, none => decide (mn < price)
  | none, some mx => decide (price ≤ mx)
  | none, none => true

/-- `${product.title} ${product.description || ''} ${product.category || ''}`
lowercased. -/
def productText (product : Product) : Str :=
  toLowerStr (product.title ++ ' ' :: product.description ++ ' ' :: product.category.getD [])

/-- Whether a product qualifies for the matched set: some keyword is a
substring of the title (strong signal), or some semantic category both
contains a query keyword and has a synonym inside the product text. -/
def productMatches (productKeywords : List Str) (product : Product) : Bool :=
  let hasExactMatch := productKeywords.any fun keyword =>
    containsL keyword (toLowerStr product.title)
  hasExactMatch ||
    semanticKeywords.any fun entry =>
      (productKeywords.any fun qkw => (entry.2.map String.data).contains qkw) &&
      (entry.2.any fun keyword => containsL keyword.data (productText product))

/-- The relevance score used by the final sort: the number of query
keywords occurring in the product title. -/
def titleScore (productKeywords : List Str) (product : Product) : Nat :=
  (productKeywords.filter fun kw => containsL kw (toLowerStr product.title)).length

/-- Stable insertion of `x` before the first element of not-larger score. -/
def insDesc (score : Product → Nat) (x : Product) : List Product → List Product
  | [] => [x]
  | y :: ys => if score y ≤ score x then x :: y :: ys else y :: insDesc score x ys

/-- Stable sort by descending score: the result of the stable JS
`Array.prototype.sort` under the comparator `(a, b) => score(b) - score(a)`. -/
def stableSortDesc (score : Product → Nat) : List Product → List Product
  | [] => []
  | x :: xs => insDesc score x (stableSortDesc score xs)

/-- `findMatchingProducts(query, products)`. -/
def findMatchingProducts (query : Str) (products : List Product) : List Product :=
  let priceRange := detectPriceRange query
  let productKeywords := extractProductKeywords query
  let filteredProducts : List Product :=
    match priceRange with
    | some r => products.filter fun product => inPriceRange r product.price
    | none => products
  if productKeywords.isEmpty then []
  else
    let matchedProducts := filteredProducts.filter (productMatches productKeywords)
    (stableSortDesc (titleScore productKeywords) matchedProducts).take 6

/-! ### `isRecommendationQuery` and `detectPhase` (route.ts) -/

/-- The keyword list of the standalone `isRecommendationQuery` helper. -/
def recQueryKeywords : List Str :=
  (["recommend", "suggest", "show me", "what do you have",
    "products", "items", "looking for", "options", "choices",
    "offer", "available", "have any", "provide"] : List String).map String.data

/-- `isRecommendationQuery(query)`. -/
def isRecommendationQuery (query : Str) : Bool :=
  recQueryKeywords.any fun kw => containsL (toLowerStr kw) (toLowerStr query)

/-- The dialogue phases. -/
inductive Phase where
  | general
  | recommendation
  | comparison
deriving DecidableEq, Repr

/-- The greeting/general keyword list of `detectPhase`. -/
def generalKeywords : List Str :=
  (["hi", "hello", "hey", "good morning", "good afternoon", "good evening",
    "who are you", "what is this", "about", "help me", "what can you do",
    "introduction", "welcome", "greetings", "what is your name",
    "how are you", "nice to meet you", "thank you", "thanks", "bye",
    "goodbye", "help", "support", "contact", "speak to human"] : List String).map String.data

/-- The store-information keyword list of `detectPhase`. -/
def storeGeneralKeywords : List Str :=
  (["what do you sell", "what products do you have", "tell me about your store",
    "what kind of store is this", "what services do you offer", "hours",
    "open", "close", "location", "where are you", "policy", "return",
    "shipping", "delivery", "payment", "price match", "discount"] : List String).map String.data

/-- The recommendation-trigger keyword list local to `detectPhase`. -/
def phaseRecommendationKeywords : List Str :=
  (["recommend", "suggest", "show me", "looking for", "options", "have any",
    "is there any", "find me", "search for", "there any", "here any"] : List String).map String.data

/-- Pending dialogue actions. -/
inductive PendingAction where
  | buy
  | view
  | cart
deriving DecidableEq, Repr

/-- A pending purchase awaiting a yes/no answer (`productPrice = none`
models a `NaN` parse of the quoted price). -/
structure PendingPurchase where
  productId : Str
  productTitle : Str
  productPrice : Option ℚ
  productSlug : Str
deriving DecidableEq, Repr

/-- `interface ConversationContext` (the unused `lastRecommendedProducts`
field is never written by the modelled code and is omitted). -/
structure ConversationContext where
  pendingPurchase : Option PendingPurchase := none
  pendingAction : Option PendingAction := none
  lastShownProducts : List Product := []
deriving DecidableEq, Repr

/-- Chat roles. -/
inductive Role where
  | user
  | assistant
deriving DecidableEq, Repr

/-- `interface ChatMessage`. -/
structure ChatMessage where
  role : Role
  content : Str
deriving DecidableEq, Repr

/-- `detectPhase(query, history, context)`: fixed-precedence routing.
The `history` argument is unused by the source body as well.  The two
`-- dead` branches transcribe source lines that are unreachable because
an earlier branch already tested the same condition. -/
def detectPhase (query : Str) (history : List ChatMessage)
    (context : ConversationContext) : Phase :=
  let lowerQuery := trimStr (toLowerStr query)
  if context.pendingAction.isSome && (isConfirmationResponse query).isSome then
    .recommendation
  else if (isComparisonQuery query).isSome then .comparison
  -- `!lowerQuery || lowerQuery.length < 2` collapses to `length < 2`
  else if lowerQuery.length < 2 || isNonsenseQuery lowerQuery then .general
  else if generalKeywords.any (fun kw => containsL kw lowerQuery) then .general
  else if storeGeneralKeywords.any (fun kw => containsL kw lowerQuery) then .general
  else if phaseRecommendationKeywords.any (fun kw => containsL kw lowerQuery) then
    .recommendation
  -- dead: same keyword test with an extra conjunct, shadowed by the branch above
  else if phaseRecommendationKeywords.any
      (fun kw => containsL kw lowerQuery && (extractProductKeywords query).isEmpty) then
    .recommendation
  -- dead: comparison was already decided in the second branch
  else if (isComparisonQuery query).isSome then .comparison
  else if !(extractProductKeywords query).isEmpty && !isRecommendationQuery query then
    .general
  else .general

/-! ### `manageConversationHistory` (route.ts) -/

/-- `manageConversationHistory(history, newUserMessage, newAssistantMessage?)`:
append the new user message (and the optional assistant message), then
keep only the last 12 entries. -/
def manageConversationHistory (history : List ChatMessage) (newUserMessage : Str)
    (newAssistantMessage : Option Str := none) : List ChatMessage :=
  let updatedHistory := history ++ [⟨.user, newUserMessage⟩]
  let updatedHistory :=
    match newAssistantMessage with
    | some m => updatedHistory ++ [⟨.assistant, m⟩]
    | none => updatedHistory
  let maxLength : Nat := 12
  if updatedHistory.length > maxLength then
    updatedHistory.drop (updatedHistory.length - maxLength)
  else updatedHistory

/-! ### `extractContextFromHistory` (route.ts) -/

/-- `/Would you like to proceed with purchasing (.+?) for (.+?)\?/i`. -/
def purchasePattern : MPat Caps :=
  pSeq [pLit "Would you like to proceed with purchasing ".data, capLazy,
    pLit " for ".data, capLazy, pLit "?".data]

/-- `/Would you like to view details for (.+?)\?/i`. -/
def viewPattern : MPat Caps :=
  pSeq [pLit "Would you like to view details for ".data, capLazy, pLit "?".data]

/-- `/Would you like to add (.+?) \((.+?)\) to your cart\?/i`. -/
def cartPattern : MPat Caps :=
  pSeq [pLit "Would you like to add ".data, capLazy, pLit " (".data, capLazy,
    pLit ") to your cart?".data]

/-- `priceText.replace(/[\$,]/g, '')`. -/
def removeDollarsCommas (s : Str) : Str :=
  s.filter fun c => !(c == '$' || c == ',')

/-- `extractContextFromHistory(history, lastShownProducts?)`: rebuild the
pending state by matching the last assistant message against the three
confirmation templates.  Histories shorter than 2 messages, or whose
last message is not from the assistant, or matching no template, yield
the empty context. -/
def extractContextFromHistory (history : List ChatMessage)
    (lastShownProducts : Option (List Product) := none) : ConversationContext :=
  let context : ConversationContext := { lastShownProducts := lastShownProducts.getD [] }
  if history.length < 2 then context
  else
    match history.getLast? with
    | none => context
    | some lastAssistantMessage =>
      if lastAssistantMessage.role = .assistant then
        let afterPurchase :=
          match reSearch purchasePattern lastAssistantMessage.content with
          | some caps =>
            let productTitle := trimStr (matchCap caps 1)
            let priceText := trimStr (matchCap caps 2)
            let productPrice := parseFloatQ (removeDollarsCommas priceText)
            let matchingProduct := (lastShownProducts.getD []).find? fun p =>
              p.title = productTitle
            { context with
              pendingPurchase := some
                { productId := (matchingProduct.map (·._id)).getD []
                  productTitle := productTitle
                  productPrice := productPrice
                  productSlug := (matchingProduct.map (·.slug)).getD [] }
              pendingAction := some .buy }
          | none => context
        let afterView :=
          match reSearch viewPattern lastAssistantMessage.content with
          | some _ => { afterPurchase with pendingAction := some .view }
          | none => afterPurchase
        match reSearch cartPattern lastAssistantMessage.content with
        | some _ => { afterView with pendingAction := some .cart }
        | none => afterView
      else context

/-! ### The confirmation short-circuit of `POST` (route.ts) -/

/-- `config.baseUrl`. -/
def baseUrl : Str := "http://plugin.ijkstaging.com".data

/-- `${config.baseUrl}/checkout/?add-to-cart=${productId}`. -/
def checkoutUrl (productId : Str) : Str :=
  baseUrl ++ "/checkout/?add-to-cart=".data ++ productId

/-- The degraded reply for a pending purchase with no product id. -/
def purchaseIssueReply : Str :=
  "I".data ++ apos ::
    "m sorry, there was an issue processing your purchase. Please try again.".data

/-- The reply accompanying a checkout redirect. -/
def purchaseSuccessReply (productTitle : Str) : Str :=
  "Great! Redirecting you to complete your purchase of ".data ++ productTitle ++ "...".data

/-- The neutral reply after a declined purchase. -/
def purchaseDeclinedReply : Str :=
  "No problem! Let me know if there".data ++ apos ::
    "s anything else I can help you with or if you".data ++ apos ::
    "d like to see other products.".data

/-- Reply for a confirmed pending view action. -/
def viewYesReply : Str :=
  "Great! Please let me know which specific product you".data ++ apos ::
    "d like to view details for.".data

/-- Reply for a confirmed pending cart action. -/
def cartYesReply : Str :=
  "Perfect! Please specify which product you".data ++ apos ::
    "d like to add to your cart.".data

/-- The default pending-action reply (kept when the pending action is
a buy). -/
def happyHelpReply : Str :=
  "I".data ++ apos :: "d be happy to help with that!".data

/-- Reply for a declined pending action. -/
def actionDeclinedReply : Str :=
  "No problem! How else can I assist you today?".data

/-- The payload of a turn resolved by the confirmation stage (all such
responses carry `phase: 'recommendation'`). -/
structure StageResponse where
  reply : Str
  redirect : Option Str := none
deriving DecidableEq, Repr

/-- Outcome of the confirmation stage at the top of `POST`:
either the turn is fully resolved here, or control continues to the
quick replies, the phase classifier and the comparison/recommendation
branches. -/
inductive ConfirmOutcome where
  | resolved (r : StageResponse)
  | continueTurn
deriving DecidableEq, Repr

/-- The two confirmation blocks at the top of `POST`, evaluated before
any catalog access, quick reply, phase classification, or
comparison/recommendation handling. -/
def confirmationStage (context : ConversationContext) (query : Str) : ConfirmOutcome :=
  let confirmation := isConfirmationResponse query
  match confirmation, context.pendingPurchase with
  | some .yes, some pendingPurchase =>
    if pendingPurchase.productId = [] then
      .resolved { reply := purchaseIssueReply }
    else
      .resolved { reply := purchaseSuccessReply pendingPurchase.productTitle
                  redirect := some (checkoutUrl pendingPurchase.productId) }
  | some .no, some _ => .resolved { reply := purchaseDeclinedReply }
  | _, _ =>
    match confirmation, context.pendingAction with
    | some .yes, some .view => .resolved { reply := viewYesReply }
    | some .yes, some .cart => .resolved { reply := cartYesReply }
    | some .yes, some .buy => .resolved { reply := happyHelpReply }
    | some .no, some _ => .resolved { reply := actionDeclinedReply }
    | _, _ => .continueTurn

/-! ### `isDirectActionRequest` (route.ts) -/

/-- The result record of `isDirectActionRequest`. -/
structure DirectAction where
  action : Option PendingAction
  productName : Str
  vague : Bool
  product : Option Product := none
deriving DecidableEq, Repr

/-- `/^(buy|purchase|get|order)\s*(it|this|that|one|something)?$/i`. -/
def vagueBuyPat : MPat Caps :=
  pSeq [pGroup (lits ["buy", "purchase", "get", "order"]), pManyG isWsChar,
    pOpt (pGroup (lits ["it", "this", "that", "one", "something"]))]

/-- `/^(view)$/i`. -/
def vagueViewPat : MPat Caps := pGroup (pLit "view".data)

/-- `/^(add to cart|cart|add|put in cart)\s*(it|this|that|one)?$/i`. -/
def vagueCartPat : MPat Caps :=
  pSeq [pGroup (lits ["add to cart", "cart", "add", "put in cart"]), pManyG isWsChar,
    pOpt (pGroup (lits ["it", "this", "that", "one"]))]

/-- `/(buy|purchase|get|order)\s+(.+)/i`. -/
def specificBuyPat : MPat Caps :=
  pSeq [pGroup (lits ["buy", "purchase", "get", "order"]), pPlusG isWsChar,
    pGroup (pPlusG isDotChar)]

/-- `isDirectActionRequest(query, products)`: the source implements the
three vague forms and the named `buy` form only — the trailing
`// Similar for view and cart...` comment is an unimplemented stub, so
named view/cart requests fall through to the `action: null` return. -/
def isDirectActionRequest (query : Str) (products : List Product) : DirectAction :=
  let lowerQuery := trimStr (toLowerStr query)
  if (reExact vagueBuyPat lowerQuery).isSome then
    { action := some .buy, productName := [], vague := true }
  else if (reExact vagueViewPat lowerQuery).isSome then
    { action := some .view, productName := [], vague := true }
  else if (reExact vagueCartPat lowerQuery).isSome then
    { action := some .cart, productName := [], vague := true }
  else
    match reSearch specificBuyPat lowerQuery with
    | some caps =>
      let productName := matchCap caps 2
      if !((["it", "this", "that", "one"] : List String).map String.data).contains
          (toLowerStr (trimStr productName)) then
        { action := some .buy, productName := productName, vague := false
          product := (findMatchingProducts productName products).head? }
      else { action := none, productName := [], vague := false }
    | none => { action := none, productName := [], vague := false }

/-! ### Sample catalog entries used by concrete scenarios -/

/-- A chair priced 80. -/
def comfyChairs : Product :=
  { slug := "comfy-chairs".data, _id := "101".data, title := "Comfy Chairs".data,
    price := 80, inventory := 100, description := "a soft chair".data }

/-- A chair priced 150. -/
def gamingChairs : Product :=
  { slug := "gaming-chairs".data, _id := "102".data, title := "Gaming Chairs".data,
    price := 150, inventory := 100, description := "a gamer chair".data }

/-- A chair priced exactly 50. -/
def basicChairs : Product :=
  { slug := "basic-chairs".data, _id := "103".data, title := "Basic Chairs".data,
    price := 50, inventory := 100, description := "basic".data }

/-- A catalog chair used by direct-action and confirmation scenarios. -/
def officeChair : Product :=
  { slug := "office-chair".data, _id := "77".data, title := "Office Chair".data,
    price := 49.5, inventory := 100, description := "an ergonomic office chair".data }

/-! ### Helper lemmas -/

/-- Membership is invariant under `insDesc`. -/
theorem mem_insDesc {score : Product → Nat} {x a : Product} {l : List Product} :
    a ∈ insDesc score x l ↔ a = x ∨ a ∈ l := by
  induction l with
  | nil => simp [insDesc]
  | cons y ys ih =>
    by_cases h : score y ≤ score x
    · simp [insDesc, h]
    · simp [insDesc, h, ih]
      tauto

/-- Membership is invariant under the stable sort. -/
theorem mem_stableSortDesc {score : Product → Nat} {a : Product} {l : List Product} :
    a ∈ stableSortDesc score l ↔ a ∈ l := by
  induction l with
  | nil => simp [stableSortDesc]
  | cons y ys ih => simp [stableSortDesc, mem_insDesc, ih]

/-! ### Claim theorems -/

/-- C4: whenever `extractProductKeywords` extracts no keywords,
`findMatchingProducts` returns the empty list — the matcher itself never
falls back to an unscoped product set. -/
theorem C4_no_keywords_no_matches (q : Str) (products : List Product)
    (h : extractProductKeywords q = []) : findMatchingProducts q products = [] := by
  simp [findMatchingProducts, h]

/-- Witness for C4 at the keyword-free query `"do you have any"`. -/
theorem C4_no_keywords_no_matches_witness :
    extractProductKeywords "do you have any".data = [] ∧
      findMatchingProducts "do you have any".data [comfyChairs, gamingChairs] = [] :=
  ⟨rfl, C4_no_keywords_no_matches _ _ rfl⟩

/-- C7: `manageConversationHistory` returns at most 12 messages, always a
suffix of the input history with the new user message (and optional
assistant message) appended; under the cap the whole sequence is kept,
over the cap exactly the oldest entries at the front are dropped. -/
theorem C7_history_cap_fifo (history : List ChatMessage) (u : Str) (a : Option Str)
    (full : List ChatMessage)
    (hfull : full = (history ++ [(⟨Role.user, u⟩ : ChatMessage)]) ++
      (match a with | some m => [(⟨Role.assistant, m⟩ : ChatMessage)] | none => [])) :
    (manageConversationHistory history u a).length ≤ 12 ∧
    (manageConversationHistory history u a) <:+ full ∧
    (full.length ≤ 12 → manageConversationHistory history u a = full) ∧
    (12 < full.length →
      manageConversationHistory history u a = full.drop (full.length - 12)) := by
  have hdef : manageConversationHistory history u a =
      if full.length > 12 then full.drop (full.length - 12) else full := by
    subst hfull
    cases a <;> simp [manageConversationHistory]
  by_cases hlen : full.length > 12
  · rw [hdef, if_pos hlen]
    refine ⟨?_, ?_, ?_, ?_⟩
    · simp [List.length_drop]
      omega
    · exact List.drop_suffix _ _
    · omega
    · intro _; rfl
  · rw [hdef, if_neg hlen]
    exact ⟨by omega, List.suffix_refl _, fun _ => rfl, fun h => absurd h hlen⟩

/-- Witness for C7: a 12-message history plus one exchange drops the two
oldest messages. -/
theorem C7_history_cap_fifo_witness :
    (manageConversationHistory
        (List.replicate 12 (⟨Role.user, "m".data⟩ : ChatMessage)) "u".data (some "a".data)).length ≤ 12 ∧
      manageConversationHistory
          (List.replicate 12 (⟨Role.user, "m".data⟩ : ChatMessage)) "u".data (some "a".data) =
        ((List.replicate 12 (⟨Role.user, "m".data⟩ : ChatMessage) ++
            [(⟨Role.user, "u".data⟩ : ChatMessage)]) ++ [(⟨Role.assistant, "a".data⟩ : ChatMessage)]).drop 2 := by
  have h := C7_history_cap_fifo (List.replicate 12 (⟨Role.user, "m".data⟩ : ChatMessage)) "u".data
    (some "a".data) _ rfl
  exact ⟨h.1, by simpa using h.2.2.2 (by simp)⟩

/-- C8: `extractContextFromHistory` is total by construction (it is a Lean
function defined for every history, reading the last message through
`getLast?`), and any history that is shorter than 2 messages, or whose
last message is not from the assistant, or whose last message matches
none of the three confirmation templates, yields the empty context:
no pending purchase and no pending action. -/
theorem C8_context_default_safe (history : List ChatMessage)
    (lastShownProducts : Option (List Product))
    (h : history.length < 2 ∨
      (∀ last, history.getLast? = some last → last.role ≠ .assistant) ∨
      (∀ last, history.getLast? = some last →
        reSearch purchasePattern last.content = none ∧
        reSearch viewPattern last.content = none ∧
        reSearch cartPattern last.content = none)) :
    (extractContextFromHistory history lastShownProducts).pendingPurchase = none ∧
    (extractContextFromHistory history lastShownProducts).pendingAction = none ∧
    (extractContextFromHistory history lastShownProducts).lastShownProducts =
      lastShownProducts.getD [] := by
  unfold extractContextFromHistory
  by_cases hl : history.length < 2
  · simp [hl]
  · simp only [hl, if_false]
    cases hlast : history.getLast? with
    | none => simp
    | some last =>
      rcases h with h | h | h
      · exact absurd h hl
      · have := h last hlast
        simp [this]
      · obtain ⟨h1, h2, h3⟩ := h last hlast
        by_cases hrole : last.role = Role.assistant
        · simp [hrole, h1, h2, h3]
        · simp [hrole]

/-- Witness for C8 at a malformed single-message history. -/
theorem C8_context_default_safe_witness :
    (extractContextFromHistory [⟨Role.user, "hello".data⟩] (some [officeChair])).pendingPurchase
        = none ∧
      (extractContextFromHistory [⟨Role.user, "hello".data⟩]
          (some [officeChair])).pendingAction = none ∧
      (extractContextFromHistory [⟨Role.user, "hello".data⟩]
          (some [officeChair])).lastShownProducts = [officeChair] :=
  C8_context_default_safe _ _ (Or.inl (by decide))

/-- C1: with a pending purchase and a yes/no confirmation query, the
confirmation stage resolves the turn immediately (never reaching the
quick replies, the phase classifier, or the comparison/recommendation
branches): a yes with a non-empty product id yields a redirect to
`baseUrl ++ "/checkout/?add-to-cart=" ++ id`; a yes with an empty id
yields no redirect and a reply signalling a purchase issue; a no yields
the neutral continuation reply without a redirect. -/
theorem C1_confirmation_short_circuit (context : ConversationContext) (query : Str)
    (pendingPurchase : PendingPurchase) (c : Confirm)
    (hp : context.pendingPurchase = some pendingPurchase)
    (hc : isConfirmationResponse query = some c) :
    (c = .yes → pendingPurchase.productId ≠ [] →
      confirmationStage context query = .resolved
        { reply := purchaseSuccessReply pendingPurchase.productTitle
          redirect := some (baseUrl ++ "/checkout/?add-to-cart=".data ++
            pendingPurchase.productId) }) ∧
    (c = .yes → pendingPurchase.productId = [] →
      confirmationStage context query = .resolved { reply := purchaseIssueReply } ∧
      containsL "an issue processing your purchase".data purchaseIssueReply = true) ∧
    (c = .no →
      confirmationStage context query = .resolved { reply := purchaseDeclinedReply }) := by
  refine ⟨?_, ?_, ?_⟩
  · rintro rfl hid
    simp only [confirmationStage, hc, hp]
    rw [if_neg hid]
    rfl
  · rintro rfl hid
    refine ⟨?_, by decide⟩
    simp only [confirmationStage, hc, hp]
    rw [if_pos hid]
  · rintro rfl
    simp only [confirmationStage, hc, hp]

/-- Witness for C1: after the assistant's purchase prompt for the catalog
chair, the query `"yes"` resolves to the checkout redirect for its id. -/
theorem C1_confirmation_short_circuit_witness :
    confirmationStage
        (extractContextFromHistory
          [⟨Role.user, "buy office chair".data⟩,
           ⟨Role.assistant,
            "Would you like to proceed with purchasing Office Chair for $49.50?".data⟩]
          (some [officeChair]))
        "yes".data =
      .resolved
        { reply := purchaseSuccessReply "Office Chair".data
          redirect := some (baseUrl ++ "/checkout/?add-to-cart=".data ++ "77".data) } :=
  (C1_confirmation_short_circuit _ _
      { productId := "77".data, productTitle := "Office Chair".data,
        productPrice := some 49.5, productSlug := "office-chair".data }
      .yes (by with_unfolding_all rfl) (by decide)).1 rfl (by decide)

/-- C2: unless a pending action coincides with a yes/no confirmation,
any query recognised by `isComparisonQuery` is classified as
`comparison` by `detectPhase`; comparison detection precedes the
greeting/general keyword tests, so general-keyword collisions (such as
the substring `hi` inside `which`) cannot swallow a comparison query. -/
theorem C2_comparison_precedence (query : Str) (history : List ChatMessage)
    (context : ConversationContext)
    (h : ¬(context.pendingAction.isSome = true ∧
      (isConfirmationResponse query).isSome = true))
    (hcmp : (isComparisonQuery query).isSome = true) :
    detectPhase query history context = .comparison := by
  have hb : (context.pendingAction.isSome && (isConfirmationResponse query).isSome) = false := by
    cases hpa : context.pendingAction.isSome <;>
      cases hic : (isConfirmationResponse query).isSome <;> simp_all
  simp [detectPhase, hb, hcmp]

/-- Witness for C2: `"which is better office chair or gaming chair"`
contains the general keyword `hi` (inside `which`) yet is classified as
a comparison, with no pending action in context. -/
theorem C2_comparison_precedence_witness :
    generalKeywords.any
        (fun kw => containsL kw
          (trimStr (toLowerStr "which is better office chair or gaming chair".data))) = true ∧
      detectPhase "which is better office chair or gaming chair".data [] {} =
        .comparison :=
  ⟨by decide,
    C2_comparison_precedence _ [] {} (by simp) (by with_unfolding_all rfl)⟩

/-- C6 (code bug): the source implements named targets only for `buy` —
`isDirectActionRequest` returns `action: none` for `"view chair"` and
`"add office chair to cart"` even though the catalog resolves the names,
so no view/cart confirmation prompt is ever emitted, while
`"buy office chair"` resolves with the top catalog match attached (the
downstream `POST` branch then redirects to checkout immediately). -/
theorem C6_named_view_cart_unimplemented :
    isDirectActionRequest "view chair".data [officeChair] =
        { action := none, productName := [], vague := false } ∧
      isDirectActionRequest "add office chair to cart".data [officeChair] =
        { action := none, productName := [], vague := false } ∧
      isDirectActionRequest "buy office chair".data [officeChair] =
        { action := some .buy, productName := "office chair".data, vague := false
          product := some officeChair } := by
  refine ⟨by with_unfolding_all rfl, by with_unfolding_all rfl, by with_unfolding_all rfl⟩

/-- C10: the price filter of `findMatchingProducts` is asymmetric — a
lone minimum is strict (`price > min`), a lone maximum is inclusive
(`price <= max`), two bounds are both inclusive; hence `"over $50"`
excludes a product priced exactly 50 while `"between $50 and $60"`
includes it. -/
theorem C10_price_filter_asymmetry :
    (∀ (mn price : ℚ), inPriceRange ⟨some mn, none⟩ price = decide (mn < price)) ∧
    (∀ (mx price : ℚ), inPriceRange ⟨none, some mx⟩ price = decide (price ≤ mx)) ∧
    (∀ (mn mx price : ℚ), inPriceRange ⟨some mn, some mx⟩ price =
      (decide (mn ≤ price) && decide (price ≤ mx))) ∧
    detectPriceRange "chairs over $50".data = some ⟨some 50, none⟩ ∧
    findMatchingProducts "chairs over $50".data [basicChairs] = [] ∧
    detectPriceRange "chairs between $50 and $60".data = some ⟨some 50, some 60⟩ ∧
    findMatchingProducts "chairs between $50 and $60".data [basicChairs] = [basicChairs] :=
  ⟨fun _ _ => rfl, fun _ _ => rfl, fun _ _ _ => rfl,
    by with_unfolding_all rfl, by with_unfolding_all rfl,
    by with_unfolding_all rfl, by with_unfolding_all rfl⟩

/-- C3 counterexample: the claim asserts
`detectPriceRange("Exactly $50") = {min: 47.5, max: 52.5}`, but the
exact-price regex `(\$?\s*\d+(?:\.\d{1,2})?)\s*(exactly|precisely)` puts
the number BEFORE the keyword, so `"Exactly $50"` matches no pattern at
all and the function returns `null`. -/
theorem C3_exactly_counterexample :
    detectPriceRange "Exactly $50".data = none ∧
      detectPriceRange "Exactly $50".data ≠
        some ⟨some 47.5, some 52.5⟩ := by
  refine ⟨rfl, ?_⟩
  rw [show detectPriceRange "Exactly $50".data = none from rfl]
  simp

/-- C3 (amended): `detectPriceRange` applies exactly one of the five
phrasings with the fixed precedence between/from > under/below >
over/above > around (±20%) > exact (±5%) — an earlier match suppresses
all later patterns — and `"Around $100"` yields `{min: 80, max: 120}`;
the exact-price pattern, however, requires the number before the
keyword: `"Exactly $50"` yields no range, while `"$50 exactly"` yields
`{min: 47.5, max: 52.5}`. -/
theorem C3_price_precedence_amended :
    (∀ q caps, reSearch betweenPattern (toLowerStr q) = some caps →
      detectPriceRange q = some ⟨some (min (capNum caps 2) (capNum caps 3)),
        some (max (capNum caps 2) (capNum caps 3))⟩) ∧
    (∀ q caps, reSearch betweenPattern (toLowerStr q) = none →
      reSearch underPattern (toLowerStr q) = some caps →
      detectPriceRange q = some ⟨none, some (capNum caps 2)⟩) ∧
    (∀ q caps, reSearch betweenPattern (toLowerStr q) = none →
      reSearch underPattern (toLowerStr q) = none →
      reSearch overPattern (toLowerStr q) = some caps →
      detectPriceRange q = some ⟨some (capNum caps 2), none⟩) ∧
    (∀ q caps, reSearch betweenPattern (toLowerStr q) = none →
      reSearch underPattern (toLowerStr q) = none →
      reSearch overPattern (toLowerStr q) = none →
      reSearch aroundPattern (toLowerStr q) = some caps →
      detectPriceRange q = some ⟨some (capNum caps 2 * 0.8), some (capNum caps 2 * 1.2)⟩) ∧
    (∀ q caps, reSearch betweenPattern (toLowerStr q) = none →
      reSearch underPattern (toLowerStr q) = none →
      reSearch overPattern (toLowerStr q) = none →
      reSearch aroundPattern (toLowerStr q) = none →
      reSearch exactPattern (toLowerStr q) = some caps →
      detectPriceRange q = some
        ⟨some ((parseFloatQ (removeFirstDollar (matchCap caps 1))).getD 0 * 0.95),
         some ((parseFloatQ (removeFirstDollar (matchCap caps 1))).getD 0 * 1.05)⟩) ∧
    detectPriceRange "Around $100".data = some ⟨some 80, some 120⟩ ∧
    detectPriceRange "Exactly $50".data = none ∧
    detectPriceRange "$50 exactly".data = some ⟨some 47.5, some 52.5⟩ := by
  refine ⟨?_, ?_, ?_, ?_, ?_,
    by with_unfolding_all rfl, rfl, by with_unfolding_all rfl⟩
  · intro q caps hb
    simp only [detectPriceRange]
    rw [hb]
  · intro q caps hb hu
    simp only [detectPriceRange]
    rw [hb, hu]
  · intro q caps hb hu ho
    simp only [detectPriceRange]
    rw [hb, hu, ho]
  · intro q caps hb hu ho ha
    simp only [detectPriceRange]
    rw [hb, hu, ho, ha]
  · intro q caps hb hu ho ha he
    simp only [detectPriceRange]
    rw [hb, hu, ho, ha, he]

/-- Witness for C3 at `"between $10 and $50"`, discharging the
between-pattern hypothesis concretely. -/
theorem C3_price_precedence_amended_witness :
    detectPriceRange "between $10 and $50".data = some ⟨some 10, some 50⟩ := by
  have h := C3_price_precedence_amended.1 "between $10 and $50".data
    ["between".data, "10".data, "50".data] (by with_unfolding_all rfl)
  rw [h]
  with_unfolding_all rfl

/-- C5: `findMatchingProducts` never returns more than six products, and
whenever the query carries a detected price range every returned product
passes the range filter; concretely, `"show me chairs under 100"`
against a catalog with chairs priced 80 and 150 returns only the chair
priced 80. -/
theorem C5_matcher_cap_and_price_filter :
    (∀ (q : Str) (products : List Product),
      (findMatchingProducts q products).length ≤ 6 ∧
      ∀ r, detectPriceRange q = some r →
        ∀ p ∈ findMatchingProducts q products, inPriceRange r p.price = true) ∧
    findMatchingProducts "show me chairs under 100".data [comfyChairs, gamingChairs] =
      [comfyChairs] := by
  constructor
  · intro q products
    by_cases hk : (extractProductKeywords q).isEmpty
    · simp [findMatchingProducts, hk]
    · have heq : findMatchingProducts q products =
          (stableSortDesc (titleScore (extractProductKeywords q))
            (((match detectPriceRange q with
              | some r => products.filter fun product => inPriceRange r product.price
              | none => products : List Product)).filter
                (productMatches (extractProductKeywords q)))).take 6 := by
        simp [findMatchingProducts, hk]
      constructor
      · rw [heq]
        simp [List.length_take]
      · intro r hr p hp
        rw [heq, hr] at hp
        have h1 := List.take_subset _ _ hp
        have h2 := mem_stableSortDesc.mp h1
        have h3 := List.mem_filter.mp h2
        exact (List.mem_filter.mp h3.1).2
  · with_unfolding_all rfl

/-- Witness for C5: the scenario catalog, with the price-range hypothesis
discharged at `"show me chairs under 100"`. -/
theorem C5_matcher_cap_and_price_filter_witness :
    (findMatchingProducts "show me chairs under 100".data
        [comfyChairs, gamingChairs]).length ≤ 6 ∧
      inPriceRange ⟨none, some 100⟩ comfyChairs.price = true := by
  refine ⟨(C5_matcher_cap_and_price_filter.1 _ _).1, ?_⟩
  exact (C5_matcher_cap_and_price_filter.1 "show me chairs under 100".data
      [comfyChairs, gamingChairs]).2 ⟨none, some 100⟩ (by with_unfolding_all rfl)
    comfyChairs
    (by rw [C5_matcher_cap_and_price_filter.2]; exact List.mem_singleton.mpr rfl)

/-! ### Engine lemmas for C9: matches never move backwards

A pattern is suffix-safe when, fed a continuation that returns a suffix
of its own input, it returns a suffix of the overall input.  All
combinators used in the price-removal patterns are suffix-safe, which
makes the output of `gRem` a sublist of its input. -/

/-- Suffix safety of a pattern in remainder mode. -/
def SuffSafe (p : MPat Str) : Prop :=
  ∀ k : MCont Str, (∀ l r, k l = some r → r <:+ l) →
    ∀ l r, p k l = some r → r <:+ l

/-- `pLit.go` returns a suffix of the input. -/
theorem pLit_go_suffix (s : Str) : ∀ l r, pLit.go s l = some r → r <:+ l := by
  induction s with
  | nil =>
    intro l r h
    simp only [pLit.go] at h
    cases h
    exact List.suffix_refl _
  | cons p ps ih =>
    intro l r h
    cases l with
    | nil => simp [pLit.go] at h
    | cons c cs =>
      simp only [pLit.go] at h
      by_cases hc : charToLower p = charToLower c
      · rw [if_pos hc] at h
        exact (ih cs r h).trans (List.suffix_cons c cs)
      · rw [if_neg hc] at h
        cases h

theorem suffSafe_pLit (s : Str) : SuffSafe (pLit s) := by
  intro k hk l r h
  simp only [pLit] at h
  cases hg : pLit.go s l with
  | none => rw [hg] at h; cases h
  | some m =>
    rw [hg] at h
    exact (hk m r h).trans (pLit_go_suffix s l m hg)

/-- Splitting of an ordered choice. -/
theorem orElse_cases {a b : Option α} {r : α} (h : (a <|> b) = some r) :
    a = some r ∨ (a = none ∧ b = some r) := by
  cases a with
  | none => right; exact ⟨rfl, h⟩
  | some x => left; simpa using h

theorem suffSafe_pAlt (ps : List (MPat Str)) (hps : ∀ p ∈ ps, SuffSafe p) :
    SuffSafe (pAlt ps) := by
  induction ps with
  | nil => intro k hk l r h; simp [pAlt] at h
  | cons p ps ih =>
    intro k hk l r h
    simp only [pAlt] at h
    rcases orElse_cases h with h1 | ⟨_, h2⟩
    · exact hps p (by simp) k hk l r h1
    · exact ih (fun q hq => hps q (by simp [hq])) k hk l r h2

theorem suffSafe_pSeq (ps : List (MPat Str)) (hps : ∀ p ∈ ps, SuffSafe p) :
    SuffSafe (pSeq ps) := by
  induction ps with
  | nil => intro k hk l r h; exact hk l r h
  | cons p ps ih =>
    intro k hk l r h
    simp only [pSeq] at h
    exact hps p (by simp) (pSeq ps k)
      (fun l2 r2 h2 => ih (fun q hq => hps q (by simp [hq])) k hk l2 r2 h2) l r h

theorem suffSafe_pOpt (p : MPat Str) (hp : SuffSafe p) : SuffSafe (pOpt p) := by
  intro k hk l r h
  simp only [pOpt] at h
  rcases orElse_cases h with h1 | ⟨_, h2⟩
  · exact hp k hk l r h1
  · exact hk l r h2

theorem manyGo_suffix (cls : Char → Bool) (k : MCont Str)
    (hk : ∀ l r, k l = some r → r <:+ l) :
    ∀ l r, manyGo cls k l = some r → r <:+ l := by
  intro l
  induction l with
  | nil => intro r h; exact hk [] r h
  | cons c cs ih =>
    intro r h
    simp only [manyGo] at h
    by_cases hc : cls c
    · rw [if_pos hc] at h
      rcases orElse_cases h with h1 | ⟨_, h2⟩
      · exact (ih r h1).trans (List.suffix_cons c cs)
      · exact hk _ r h2
    · rw [if_neg hc] at h
      exact hk _ r h

theorem suffSafe_pManyG (cls : Char → Bool) : SuffSafe (pManyG cls) := by
  intro k hk l r h
  exact manyGo_suffix cls k hk l r h

theorem suffSafe_pPlusG (cls : Char → Bool) : SuffSafe (pPlusG cls) := by
  intro k hk l r h
  cases l with
  | nil => simp [pPlusG] at h
  | cons c cs =>
    simp only [pPlusG] at h
    by_cases hc : cls c
    · rw [if_pos hc] at h
      exact (manyGo_suffix cls k hk cs r h).trans (List.suffix_cons c cs)
    · rw [if_neg hc] at h
      cases h

theorem suffSafe_pRep12 (cls : Char → Bool) : SuffSafe (pRep12 cls) := by
  intro k hk l r h
  match l with
  | [] => simp [pRep12] at h
  | [c1] =>
    simp only [pRep12] at h
    by_cases hc : cls c1
    · rw [if_pos hc] at h
      exact (hk [] r h).trans (by simp)
    · rw [if_neg hc] at h; cases h
  | c1 :: c2 :: t =>
    simp only [pRep12] at h
    by_cases h1 : cls c1
    · rw [if_pos h1] at h
      by_cases h2 : cls c2
      · rw [if_pos h2] at h
        rcases orElse_cases h with ha | ⟨_, hb⟩
        · exact (hk t r ha).trans ⟨[c1, c2], rfl⟩
        · exact (hk (c2 :: t) r hb).trans ⟨[c1], rfl⟩
      · rw [if_neg h2] at h
        exact (hk (c2 :: t) r h).trans ⟨[c1], rfl⟩
    · rw [if_neg h1] at h; cases h

theorem suffSafe_lits (ss : List String) : SuffSafe (lits ss) := by
  refine suffSafe_pAlt _ ?_
  intro p hp
  simp only [lits, List.mem_map] at hp
  obtain ⟨s, _, rfl⟩ := hp
  exact suffSafe_pLit s.data

/-- Each of the five removal patterns is suffix-safe. -/
theorem suffSafe_kwPricePatterns : ∀ p ∈ kwPricePatterns, SuffSafe p := by
  have hnum : SuffSafe (numberPat (α := Str)) := by
    refine suffSafe_pSeq _ ?_
    intro p hp
    simp only [numberPat, List.mem_cons, List.not_mem_nil, or_false] at hp
    rcases hp with rfl | rfl
    · exact suffSafe_pPlusG _
    · refine suffSafe_pOpt _ (suffSafe_pSeq _ ?_)
      intro p hp
      simp only [List.mem_cons, List.not_mem_nil, or_false] at hp
      rcases hp with rfl | rfl
      · exact suffSafe_pLit _
      · exact suffSafe_pRep12 _
  intro p hp
  simp only [kwPricePatterns, List.mem_cons, List.not_mem_nil, or_false] at hp
  rcases hp with rfl | rfl | rfl | rfl | rfl <;>
    · refine suffSafe_pSeq _ ?_
      intro p hp
      simp only [moneyGap, List.mem_append, List.mem_cons, List.not_mem_nil,
        or_false] at hp
      casesm* _ ∨ _
      all_goals subst p
      all_goals
        first
          | exact hnum
          | exact suffSafe_lits _
          | exact suffSafe_pLit _
          | exact suffSafe_pManyG _
          | exact suffSafe_pOpt _ (suffSafe_pLit _)

/-- A successful `reFindAt` lands on a suffix of the input. -/
theorem reFindAt_suffix (p : MPat Str) (hp : SuffSafe p) :
    ∀ l r, reFindAt p l = some r → r <:+ l := by
  intro l r h
  exact hp some (fun l2 r2 h2 => by cases h2; exact List.suffix_refl _) l r h

/-- `gRemFuel` output is a sublist of its input. -/
theorem gRemFuel_sublist (tryAt : Str → Option Str)
    (ht : ∀ l r, tryAt l = some r → r <:+ l) :
    ∀ (fuel : Nat) (l : Str), List.Sublist (gRemFuel tryAt fuel l) l := by
  intro fuel
  induction fuel with
  | zero => intro l; simp [gRemFuel]
  | succ f ih =>
    intro l
    cases l with
    | nil => simp [gRemFuel]
    | cons c cs =>
      simp only [gRemFuel]
      cases htry : tryAt (c :: cs) with
      | some rest =>
        dsimp only
        by_cases hlen : rest.length < cs.length + 1
        · rw [if_pos hlen]
          exact (ih rest).trans ((ht _ _ htry).sublist)
        · rw [if_neg hlen]
          exact (ih cs).cons₂ c
      | none =>
        dsimp only
        exact (ih cs).cons₂ c

/-- `gRem` output is a sublist of its input. -/
theorem gRem_sublist (tryAt : Str → Option Str)
    (ht : ∀ l r, tryAt l = some r → r <:+ l) (l : Str) :
    List.Sublist (gRem tryAt l) l :=
  gRemFuel_sublist tryAt ht l.length l

/-- Price-phrase removal only deletes characters. -/
theorem removePricePhrases_sublist (s : Str) :
    List.Sublist (removePricePhrases s) s := by
  have hstep : ∀ (ps : List (MPat Str)), (∀ p ∈ ps, SuffSafe p) →
      ∀ s, List.Sublist (ps.foldl (fun acc pat => gRem (reFindAt pat) acc) s) s := by
    intro ps
    induction ps with
    | nil => intro _ s; simp
    | cons p ps ih =>
      intro hps s
      simp only [List.foldl_cons]
      exact (ih (fun q hq => hps q (by simp [hq])) _).trans
        (gRem_sublist _ (reFindAt_suffix p (hps p (by simp))) s)
  exact hstep kwPricePatterns suffSafe_kwPricePatterns s

/-! ### `splitWs`, `dedupFirst` and lowercase lemmas for C9 -/

/-- Characters of any `splitWsA` token are non-whitespace and come from
the input or the accumulator. -/
theorem splitWsA_token_chars :
    ∀ (l : Str) (o : Option Str),
      (∀ acc, o = some acc → ∀ c ∈ acc, isWsChar c = false) →
      ∀ w ∈ splitWsA l o, ∀ c ∈ w,
        isWsChar c = false ∧ (c ∈ l ∨ ∃ acc, o = some acc ∧ c ∈ acc) := by
  intro l
  induction l with
  | nil =>
    intro o ho w hw c hc
    cases o with
    | none => simp [splitWsA] at hw; simp [hw] at hc
    | some acc =>
      simp only [splitWsA, List.mem_singleton] at hw
      subst hw
      rw [List.mem_reverse] at hc
      exact ⟨ho acc rfl c hc, Or.inr ⟨acc, rfl, hc⟩⟩
  | cons x xs ih =>
    intro o ho w hw c hc
    cases o with
    | some acc =>
      by_cases hx : isWsChar x
      · simp only [splitWsA, hx, if_true] at hw
        rcases List.mem_cons.mp hw with rfl | hw2
        · rw [List.mem_reverse] at hc
          exact ⟨ho acc rfl c hc, Or.inr ⟨acc, rfl, hc⟩⟩
        · obtain ⟨h1, h2⟩ := ih none (by simp) w hw2 c hc
          refine ⟨h1, Or.inl ?_⟩
          rcases h2 with h2 | ⟨_, h, _⟩
          · exact List.mem_cons_of_mem x h2
          · cases h
      · simp only [splitWsA, hx, if_false] at hw
        obtain ⟨h1, h2⟩ := ih (some (x :: acc))
          (by rintro acc2 ⟨rfl⟩ c2 hc2
              rcases List.mem_cons.mp hc2 with rfl | hc3
              · simpa using hx
              · exact ho acc rfl c2 hc3) w hw c hc
        refine ⟨h1, ?_⟩
        rcases h2 with h2 | ⟨acc2, hacc2, hc2⟩
        · exact Or.inl (List.mem_cons_of_mem x h2)
        · cases hacc2
          rcases List.mem_cons.mp hc2 with rfl | hc3
          · exact Or.inl (List.mem_cons_self c xs)
          · exact Or.inr ⟨acc, rfl, hc3⟩
    | none =>
      by_cases hx : isWsChar x
      · simp only [splitWsA, hx, if_true] at hw
        obtain ⟨h1, h2⟩ := ih none (by simp) w hw c hc
        refine ⟨h1, Or.inl ?_⟩
        rcases h2 with h2 | ⟨_, h, _⟩
        · exact List.mem_cons_of_mem x h2
        · cases h
      · simp only [splitWsA, hx, if_false] at hw
        obtain ⟨h1, h2⟩ := ih (some [x])
          (by rintro acc2 ⟨rfl⟩ c2 hc2
              rcases List.mem_cons.mp hc2 with rfl | hc3
              · simpa using hx
              · simp at hc3) w hw c hc
        refine ⟨h1, ?_⟩
        rcases h2 with h2 | ⟨acc2, hacc2, hc2⟩
        · exact Or.inl (List.mem_cons_of_mem x h2)
        · cases hacc2
          rcases List.mem_cons.mp hc2 with rfl | hc3
          · exact Or.inl (List.mem_cons_self c xs)
          · simp at hc3

/-- Characters of any `splitWs` token are non-whitespace characters of
the input. -/
theorem splitWs_token_chars (l : Str) (w : Str) (hw : w ∈ splitWs l) (c : Char)
    (hc : c ∈ w) : isWsChar c = false ∧ c ∈ l := by
  obtain ⟨h1, h2⟩ := splitWsA_token_chars l (some [])
    (by rintro acc ⟨rfl⟩ c2 hc2; simp at hc2) w hw c hc
  refine ⟨h1, ?_⟩
  rcases h2 with h2 | ⟨acc, hacc, hc2⟩
  · exact h2
  · cases hacc; simp at hc2

/-- Elements of `dedupFirstGo` come from the input list. -/
theorem mem_of_mem_dedupFirstGo (seen : List Str) (l : List Str) (w : Str)
    (hw : w ∈ dedupFirstGo seen l) : w ∈ l := by
  induction l generalizing seen with
  | nil => simpa [dedupFirstGo] using hw
  | cons x xs ih =>
    simp only [dedupFirstGo] at hw
    by_cases hx : seen.contains x
    · rw [if_pos hx] at hw
      exact List.mem_cons_of_mem x (ih seen hw)
    · rw [if_neg hx] at hw
      rcases List.mem_cons.mp hw with rfl | hw2
      · exact List.mem_cons_self w xs
      · exact List.mem_cons_of_mem x (ih (x :: seen) hw2)

/-- `dedupFirstGo` keeps a list unchanged if the list has no duplicates
and avoids the seen set. -/
theorem dedupFirstGo_eq_self (l : List Str) :
    ∀ seen, l.Nodup → (∀ w ∈ l, w ∉ seen) → dedupFirstGo seen l = l := by
  induction l with
  | nil => intro seen _ _; rfl
  | cons x xs ih =>
    intro seen hnd hout
    have hx : seen.contains x = false := by
      by_contra hcon
      exact hout x (List.mem_cons_self x xs) (by simpa using hcon)
    simp only [dedupFirstGo, hx, Bool.false_eq_true, if_false]
    congr 1
    refine ih (x :: seen) (List.Nodup.of_cons hnd) ?_
    intro w hw hmem
    rcases List.mem_cons.mp hmem with rfl | hmem2
    · exact (List.nodup_cons.mp hnd).1 hw
    · exact hout w (List.mem_cons_of_mem x hw) hmem2

/-- `dedupFirstGo` output avoids the seen set and has no duplicates. -/
theorem dedupFirstGo_nodup (l : List Str) :
    ∀ seen, (dedupFirstGo seen l).Nodup ∧ ∀ w ∈ dedupFirstGo seen l, w ∉ seen := by
  induction l with
  | nil => intro seen; simp [dedupFirstGo]
  | cons x xs ih =>
    intro seen
    by_cases hx : seen.contains x
    · simp only [dedupFirstGo, hx, if_true]
      exact ih seen
    · obtain ⟨hnd, hav⟩ := ih (x :: seen)
      simp only [dedupFirstGo, hx, Bool.false_eq_true, if_false]
      constructor
      · exact List.nodup_cons.mpr
          ⟨fun hmem => hav x hmem (List.mem_cons_self x seen), hnd⟩
      · intro w hw hws
        rcases List.mem_cons.mp hw with rfl | hw2
        · exact absurd (by simpa using hws : seen.contains w = true) (by simpa using hx)
        · exact hav w hw2 (List.mem_cons_of_mem x hws)

/-- `dedupFirst` is idempotent. -/
theorem dedupFirst_idem (l : List Str) : dedupFirst (dedupFirst l) = dedupFirst l :=
  dedupFirstGo_eq_self _ [] (dedupFirstGo_nodup l []).1 (by simp)

/-- `Char.ofNat` on small codes. -/
theorem charOfNat_toNat (n : Nat) (h1 : n ≤ 122) : (Char.ofNat n).toNat = n := by
  have hv : Char.isValidCharNat n := Or.inl (by omega)
  unfold Char.ofNat
  rw [dif_pos hv]
  unfold Char.ofNatAux
  simp [Char.toNat, UInt32.ofNat', UInt32.toNat, BitVec.toNat_ofNatLt]

/-- ASCII lowering is idempotent. -/
theorem charToLower_idem (c : Char) : charToLower (charToLower c) = charToLower c := by
  unfold charToLower
  by_cases h : 'A' ≤ c ∧ c ≤ 'Z'
  · rw [if_pos h]
    obtain ⟨h1, h2⟩ := h
    have hb1 : 65 ≤ c.toNat := h1
    have hb2 : c.toNat ≤ 90 := h2
    have htn : (Char.ofNat (c.toNat + 32)).toNat = c.toNat + 32 :=
      charOfNat_toNat _ (by omega)
    rw [if_neg]
    intro hcon
    obtain ⟨_, hc2⟩ := hcon
    have : (Char.ofNat (c.toNat + 32)).toNat ≤ 90 := hc2
    omega
  · rw [if_neg h, if_neg h]

/-- Every character of a lowercased string is fixed by lowering. -/
theorem mem_toLowerStr_fixed (s : Str) (c : Char) (hc : c ∈ toLowerStr s) :
    charToLower c = c := by
  obtain ⟨a, _, rfl⟩ := List.mem_map.mp hc
  exact charToLower_idem a

/-- `keywords.join(' ')`. -/
def joinSpace : List Str → Str
  | [] => []
  | [w] => w
  | w :: ws => w ++ ' ' :: joinSpace ws

/-- A whitespace-free block at the front is accumulated verbatim. -/
theorem splitWsA_append_token (t : Str) :
    ∀ (acc rest : Str), (∀ c ∈ t, isWsChar c = false) →
      splitWsA (t ++ rest) (some acc) = splitWsA rest (some (t.reverse ++ acc)) := by
  induction t with
  | nil => intro acc rest _; simp
  | cons c ts ih =>
    intro acc rest ht
    have hc : isWsChar c = false := ht c (List.mem_cons_self c ts)
    rw [List.cons_append, splitWsA, if_neg (by simp [hc]),
      ih (c :: acc) rest (fun d hd => ht d (List.mem_cons_of_mem c hd))]
    simp

/-- `joinSpace` over a nonempty tail. -/
theorem joinSpace_cons (w : Str) (ws : List Str) (h : ws ≠ []) :
    joinSpace (w :: ws) = w ++ ' ' :: joinSpace ws := by
  cases ws with
  | nil => exact absurd rfl h
  | cons _ _ => rfl

/-- Splitting the space-join of nonempty whitespace-free tokens recovers
the tokens. -/
theorem splitWs_joinSpace (ks : List Str) (hne : ks ≠ [])
    (hprops : ∀ w ∈ ks, w ≠ [] ∧ ∀ c ∈ w, isWsChar c = false) :
    splitWs (joinSpace ks) = ks := by
  induction ks with
  | nil => exact absurd rfl hne
  | cons w ws ih =>
    cases ws with
    | nil =>
      show splitWsA (joinSpace [w]) (some []) = [w]
      have hj : joinSpace [w] = w ++ [] := by simp [joinSpace]
      rw [hj, splitWsA_append_token w [] [] (hprops w (by simp)).2]
      simp [splitWsA]
    | cons w2 ws2 =>
      rw [joinSpace_cons w (w2 :: ws2) (by simp)]
      show splitWsA (w ++ ' ' :: joinSpace (w2 :: ws2)) (some []) = _
      rw [splitWsA_append_token w [] (' ' :: joinSpace (w2 :: ws2))
        (hprops w (by simp)).2]
      have hws : isWsChar ' ' = true := by decide
      simp only [splitWsA, hws, if_true, List.append_nil, List.reverse_reverse]
      congr 1
      have hIH : splitWs (joinSpace (w2 :: ws2)) = w2 :: ws2 :=
        ih (by simp) (fun v hv => hprops v (List.mem_cons_of_mem w hv))
      obtain ⟨hne2, hfree2⟩ := hprops w2 (by simp)
      obtain ⟨c, t, hw2⟩ : ∃ c t, w2 = c :: t := by
        cases w2 with
        | nil => exact absurd rfl hne2
        | cons c t => exact ⟨c, t, rfl⟩
      obtain ⟨t2, hj, hc⟩ : ∃ t2, joinSpace (w2 :: ws2) = c :: t2 ∧
          isWsChar c = false := by
        have hcfree := hfree2 c (by rw [hw2]; exact List.mem_cons_self c t)
        cases ws2 with
        | nil => exact ⟨t, by simp [joinSpace, hw2], hcfree⟩
        | cons a b =>
          exact ⟨t ++ ' ' :: joinSpace (a :: b),
            by rw [joinSpace_cons _ _ (by simp), hw2]; simp, hcfree⟩
      rw [hj]
      have hnone : splitWsA (c :: t2) none = splitWs (c :: t2) := by
        simp [splitWsA, splitWs, hc]
      rw [hnone, ← hj]
      exact hIH

/-- Characters of a space-join are spaces or token characters. -/
theorem mem_joinSpace (ks : List Str) (c : Char) (hc : c ∈ joinSpace ks) :
    c = ' ' ∨ ∃ w ∈ ks, c ∈ w := by
  induction ks with
  | nil => simp [joinSpace] at hc
  | cons w ws ih =>
    cases ws with
    | nil =>
      right
      exact ⟨w, by simp, by simpa [joinSpace] using hc⟩
    | cons w2 ws2 =>
      rw [joinSpace_cons w (w2 :: ws2) (by simp)] at hc
      rcases List.mem_append.mp hc with h | h
      · exact Or.inr ⟨w, by simp, h⟩
      · rcases List.mem_cons.mp h with rfl | h2
        · exact Or.inl rfl
        · rcases ih h2 with h3 | ⟨v, hv, hcv⟩
          · exact Or.inl h3
          · exact Or.inr ⟨v, List.mem_cons_of_mem w hv, hcv⟩

/-- Mapping a function that fixes every element is the identity. -/
theorem listMap_fixed (l : List Char) (f : Char → Char) (h : ∀ x ∈ l, f x = x) :
    l.map f = l := by
  induction l with
  | nil => rfl
  | cons x xs ih => simp [h x (by simp), ih fun y hy => h y (by simp [hy])]

/-- C9 counterexample: `extractProductKeywords("under the 100")` is
`["under", "100"]` — the stop-word `the` separates `under` from the
number, so no price pattern fires — but rejoining with spaces yields
`"under 100"`, which the price stripper now deletes wholesale, so the
second run returns `[]`, not the same list. -/
theorem C9_idempotence_counterexample :
    extractProductKeywords "under the 100".data = ["under".data, "100".data] ∧
    extractProductKeywords (joinSpace (extractProductKeywords "under the 100".data)) = [] ∧
    extractProductKeywords (joinSpace (extractProductKeywords "under the 100".data)) ≠
      extractProductKeywords "under the 100".data :=
  ⟨rfl, rfl, by decide⟩

/-- C9 (amended): `extractProductKeywords` is idempotent on its own
output whenever the price stripper leaves the space-joined keyword
string unchanged (equivalently, the joined keywords contain no price
phrase); without that proviso idempotence fails, as on
`"under the 100"`. -/
theorem C9_keywords_idempotent_amended (q : Str)
    (h : removePricePhrases (joinSpace (extractProductKeywords q)) =
      joinSpace (extractProductKeywords q)) :
    extractProductKeywords (joinSpace (extractProductKeywords q)) =
      extractProductKeywords q := by
  have hunf : extractProductKeywords q =
      dedupFirst ((splitWs (removePricePhrases (toLowerStr q))).filter
        (fun w => w.length > 2 && !(kwFillerWords.contains w))) := rfl
  have hfacts : ∀ w ∈ extractProductKeywords q,
      (w.length > 2 ∧ kwFillerWords.contains w = false) ∧
        ∀ c ∈ w, isWsChar c = false ∧ charToLower c = c := by
    intro w hw
    rw [hunf] at hw
    have hw2 := mem_of_mem_dedupFirstGo [] _ w hw
    have hw3 := List.mem_filter.mp hw2
    constructor
    · have := hw3.2
      simp only [Bool.and_eq_true, Bool.not_eq_true', decide_eq_true_eq] at this
      exact ⟨by exact_mod_cast this.1, this.2⟩
    · intro c hc
      obtain ⟨hws, hmem⟩ := splitWs_token_chars _ w hw3.1 c hc
      have hmem2 : c ∈ toLowerStr q :=
        (removePricePhrases_sublist (toLowerStr q)).subset hmem
      exact ⟨hws, mem_toLowerStr_fixed q c hmem2⟩
  by_cases hnil : extractProductKeywords q = []
  · rw [hnil]
    exact (rfl : extractProductKeywords (joinSpace []) = [])
  · have hlower : toLowerStr (joinSpace (extractProductKeywords q)) =
        joinSpace (extractProductKeywords q) := by
      refine listMap_fixed _ _ ?_
      intro c hc
      rcases mem_joinSpace _ c hc with rfl | ⟨w, hw, hcw⟩
      · decide
      · exact ((hfacts w hw).2 c hcw).2
    have hsplit : splitWs (joinSpace (extractProductKeywords q)) =
        extractProductKeywords q := by
      refine splitWs_joinSpace _ hnil ?_
      intro w hw
      refine ⟨?_, fun c hc => ((hfacts w hw).2 c hc).1⟩
      intro hwnil
      have := (hfacts w hw).1.1
      rw [hwnil] at this
      simp at this
    have hfilter : (extractProductKeywords q).filter
        (fun w => w.length > 2 && !(kwFillerWords.contains w)) =
          extractProductKeywords q := by
      refine List.filter_eq_self.mpr ?_
      intro w hw
      have := (hfacts w hw).1
      have hnm : w ∉ kwFillerWords := by simpa using this.2
      simp [this.1, hnm]
    calc extractProductKeywords (joinSpace (extractProductKeywords q))
        = dedupFirst ((splitWs (removePricePhrases
            (toLowerStr (joinSpace (extractProductKeywords q))))).filter
            (fun w => w.length > 2 && !(kwFillerWords.contains w))) := rfl
      _ = dedupFirst ((extractProductKeywords q).filter
            (fun w => w.length > 2 && !(kwFillerWords.contains w))) := by
            rw [hlower, h, hsplit]
      _ = dedupFirst (extractProductKeywords q) := by rw [hfilter]
      _ = extractProductKeywords q := by
            rw [hunf]
            exact dedupFirst_idem _

/-- Witness for C9: `"show me office chairs"` yields keywords whose join
contains no price phrase, and the second run reproduces them. -/
theorem C9_keywords_idempotent_amended_witness :
    extractProductKeywords "show me office chairs".data =
        ["office".data, "chairs".data] ∧
      extractProductKeywords
          (joinSpace (extractProductKeywords "show me office chairs".data)) =
        extractProductKeywords "show me office chairs".data :=
  ⟨rfl, C9_keywords_idempotent_amended "show me office chairs".data rfl⟩
